import Mathlib

/-!
Shallow embedding of `timm/models/xception_aligned.py` (Aligned Xception):
the block/stem/head data model, the stride-dilation planning loop of
`XceptionAligned.__init__`, `XceptionModule.__init__`/`forward`,
`ClassifierHead`, and `reset_classifier`.  Machine integers are modelled as
`Nat` (all quantities involved are small positive Python ints), Python
`assert`/`AttributeError` failures as `Except` errors, and tensors either
symbolically (`TensorExpr`) or by their channel count (shape semantics).
-/

namespace XA

/-- Python `out_chs`: either a scalar int (broadcast to three) or a
list/tuple of channel counts (the code asserts its length is 3). -/
inductive ChannelSpec where
  | scalar (c : Nat) : ChannelSpec
  | tuple (l : List Nat) : ChannelSpec
deriving DecidableEq, Repr

/-- One entry of the `block_cfg` list handed to `XceptionAligned.__init__`
(dict keys `in_chs`, `out_chs`, `stride`, `start_with_relu`, `no_skip`;
the `dilation` key is assigned by the builder, not by the caller). -/
structure BlockCfg where
  in_chs : Nat
  out_chs : ChannelSpec
  stride : Nat
  start_with_relu : Bool := true
  no_skip : Bool := false
deriving DecidableEq, Repr

/-- `ConvBnAct(in_chs, out_chs, kernel_size, stride, act_layer)`:
conv + batch-norm (+ optional activation), described by its
shape-relevant hyperparameters. -/
structure ConvBnAct where
  in_chs : Nat
  out_chs : Nat
  kernel_size : Nat
  stride : Nat
  has_act : Bool
deriving DecidableEq, Repr

/-- `SeparableConv2d`: depthwise conv + BN (+ act) then pointwise 1x1 conv
+ BN (+ act); `has_act` records whether `act_layer` was passed
(`None` when the enclosing block starts with relu). -/
structure SeparableConv2d where
  inplanes : Nat
  planes : Nat
  kernel_size : Nat
  stride : Nat
  dilation : Nat
  has_act : Bool
deriving DecidableEq, Repr

/-- One member of `XceptionModule.stack` (`nn.Sequential`): either a
`nn.ReLU(inplace=...)` or a `SeparableConv2d`. -/
inductive StackItem where
  | act (inplace : Bool) : StackItem
  | conv (c : SeparableConv2d) : StackItem
deriving DecidableEq, Repr

/-- `XceptionModule` as constructed by `XceptionModule.__init__`. -/
structure XceptionModule where
  in_channels : Nat
  out_channels : Nat
  no_skip : Bool
  shortcut : Option ConvBnAct
  stack : List StackItem
deriving DecidableEq, Repr

/-- Errors construction can raise: the `assert output_stride in (8, 16, 32)`,
the `assert len(out_chs) == 3`, and the `AttributeError` on
`self.num_features` when `block_cfg` is empty. -/
inductive BuildError where
  | invalidOutputStride (os : Nat) : BuildError
  | badChannelTuple (len : Nat) : BuildError
  | emptyBlockCfg : BuildError
deriving DecidableEq, Repr

/-- The three-iteration `for i in range(3)` loop of
`XceptionModule.__init__`, unrolled: when `start_with_relu` each conv is
preceded by `nn.ReLU(inplace=i > 0)` and the separable convs get no
internal activation; the block stride is used only at the third conv. -/
def stackItems (start_with_relu : Bool) (in_chs c0 c1 c2 stride dilation : Nat) :
    List StackItem :=
  (if start_with_relu then [StackItem.act false] else []) ++
  [StackItem.conv ⟨in_chs, c0, 3, 1, dilation, !start_with_relu⟩] ++
  (if start_with_relu then [StackItem.act true] else []) ++
  [StackItem.conv ⟨c0, c1, 3, 1, dilation, !start_with_relu⟩] ++
  (if start_with_relu then [StackItem.act true] else []) ++
  [StackItem.conv ⟨c1, c2, 3, stride, dilation, !start_with_relu⟩]

/-- `XceptionModule.__init__` body after `out_chs` has been normalised to
the triple `(c0, c1, c2)`: shortcut policy plus the stack. -/
def XceptionModule.mk3 (in_chs c0 c1 c2 stride dilation : Nat)
    (start_with_relu no_skip : Bool) : XceptionModule :=
  { in_channels := in_chs
    out_channels := c2
    no_skip := no_skip
    shortcut :=
      if !no_skip && (c2 != in_chs || stride != 1) then
        some ⟨in_chs, c2, 1, stride, false⟩
      else
        none
    stack := stackItems start_with_relu in_chs c0 c1 c2 stride dilation }

/-- `XceptionModule.__init__`: a list/tuple `out_chs` must have length 3
(`assert len(out_chs) == 3`), a scalar is broadcast `(out_chs,) * 3`. -/
def XceptionModule.make (in_chs : Nat) (out_chs : ChannelSpec)
    (stride dilation : Nat) (start_with_relu no_skip : Bool) :
    Except BuildError XceptionModule :=
  match out_chs with
  | .tuple l =>
      if l.length = 3 then
        .ok (XceptionModule.mk3 in_chs (l.getD 0 0) (l.getD 1 0) (l.getD 2 0)
          stride dilation start_with_relu no_skip)
      else .error (.badChannelTuple l.length)
  | .scalar c =>
      .ok (XceptionModule.mk3 in_chs c c c stride dilation start_with_relu no_skip)

/-- Symbolic tensors for `XceptionModule.forward`: the input, the result of
running a stack on a tensor, the result of a shortcut `ConvBnAct`, and
elementwise addition. -/
inductive TensorExpr where
  | input : TensorExpr
  | stackOut (stack : List StackItem) (x : TensorExpr) : TensorExpr
  | shortcutOut (s : ConvBnAct) (x : TensorExpr) : TensorExpr
  | add (a b : TensorExpr) : TensorExpr
deriving DecidableEq, Repr

/-- `XceptionModule.forward`: `skip = x; x = self.stack(x);
if self.shortcut is not None: skip = self.shortcut(skip);
if not self.no_skip: x = x + skip; return x`. -/
def XceptionModule.forward (m : XceptionModule) (x : TensorExpr) : TensorExpr :=
  let skip := x
  let x1 := TensorExpr.stackOut m.stack x
  let skip1 :=
    match m.shortcut with
    | some s => TensorExpr.shortcutOut s skip
    | none => skip
  if !m.no_skip then TensorExpr.add x1 skip1 else x1

/-- The planner's per-block outcome: the `dilation`/`stride` written into
the block dict (effective values the module is built with), the updated
running state, and the `feature_extract` flag. -/
structure PlanResult where
  eff_stride : Nat
  eff_dilation : Nat
  curr_stride : Nat
  curr_dilation : Nat
  feature_extract : Bool
deriving DecidableEq, Repr

/-- Lines 161-170 of `XceptionAligned.__init__`, for one block:
`b['dilation'] = curr_dilation` happens before the stride test; a declared
stride > 1 whose `next_stride = curr_stride * b['stride']` exceeds
`output_stride` is absorbed (`curr_dilation *= b['stride']; b['stride'] = 1`),
otherwise accepted (`curr_stride = next_stride`). -/
def planBlock (output_stride curr_stride curr_dilation declared_stride : Nat) :
    PlanResult :=
  let dilation := curr_dilation
  if declared_stride > 1 then
    let next_stride := curr_stride * declared_stride
    if next_stride > output_stride then
      { eff_stride := 1, eff_dilation := dilation,
        curr_stride := curr_stride, curr_dilation := curr_dilation * declared_stride,
        feature_extract := true }
    else
      { eff_stride := declared_stride, eff_dilation := dilation,
        curr_stride := next_stride, curr_dilation := curr_dilation,
        feature_extract := true }
  else
    { eff_stride := declared_stride, eff_dilation := dilation,
      curr_stride := curr_stride, curr_dilation := curr_dilation,
      feature_extract := false }

/-- Running `(curr_stride, curr_dilation)` update of one planner step. -/
def planStepPair (os : Nat) (s : Nat × Nat) (d : Nat) : Nat × Nat :=
  let r := planBlock os s.1 s.2 d
  (r.curr_stride, r.curr_dilation)

/-- Final `(curr_stride, curr_dilation)` after planning a stride list. -/
def planFold (os : Nat) (s : Nat × Nat) (strides : List Nat) : Nat × Nat :=
  strides.foldl (planStepPair os) s

/-- All intermediate `(curr_stride, curr_dilation)` states, the initial one
included. -/
def planTrace (os : Nat) (s : Nat × Nat) : List Nat → List (Nat × Nat)
  | [] => [s]
  | d :: rest => s :: planTrace os (planStepPair os s d) rest

/-- Per-block effective `(stride, dilation)` pairs the modules are built
with, in block order. -/
def planEffList (os : Nat) (s : Nat × Nat) : List Nat → List (Nat × Nat)
  | [] => []
  | d :: rest =>
      let r := planBlock os s.1 s.2 d
      (r.eff_stride, r.eff_dilation) ::
        planEffList os (r.curr_stride, r.curr_dilation) rest

/-- Declared strides of the blocks the planner absorbs (declared stride > 1
and `curr_stride * stride > output_stride`), in block order. -/
def absorbedStrides (os : Nat) (s : Nat × Nat) : List Nat → List Nat
  | [] => []
  | d :: rest =>
      let tail := absorbedStrides os (planStepPair os s d) rest
      if d > 1 then (if s.1 * d > os then d :: tail else tail) else tail

/-- `feature_info` entry: `dict(num_chs=..., reduction=..., module=...)`. -/
structure FeatureInfo where
  num_chs : Nat
  reduction : Nat
  module_id : String
deriving DecidableEq, Repr

/-- `ClassifierHead.fc`: `nn.Linear(in_chs, num_classes)` when
`num_classes > 0`, else `nn.Identity()`. -/
inductive FcLayer where
  | identity : FcLayer
  | linear (in_features out_features : Nat) : FcLayer
deriving DecidableEq, Repr

/-- `ClassifierHead.__init__` state: pooling kind, drop rate, fc layer. -/
structure ClassifierHead where
  drop_rate : Rat
  pool_type : String
  fc : FcLayer
deriving DecidableEq, Repr

/-- `ClassifierHead.__init__`. -/
def ClassifierHead.make (in_chs num_classes : Nat) (pool_type : String)
    (drop_rate : Rat) : ClassifierHead :=
  { drop_rate := drop_rate
    pool_type := pool_type
    fc := if num_classes > 0 then .linear in_chs num_classes else .identity }

/-- Application of the fc layer to a pooled feature vector, with symbolic
weights `w` and bias `b`: `nn.Identity` returns its input,
`nn.Linear(nIn, nOut)` computes the affine map. -/
def FcLayer.apply (w : Nat → Nat → Rat) (b : Nat → Rat) :
    FcLayer → List Rat → List Rat
  | .identity, x => x
  | .linear nIn nOut, x =>
      (List.range nOut).map fun j =>
        b j + ((List.range nIn).map fun i => w j i * x.getD i 0).sum

/-- `ClassifierHead.forward` in evaluation mode on the pooled, flattened
feature vector (`F.dropout` with `training=False` is the identity, so only
the fc layer acts). -/
def ClassifierHead.forwardPooled (h : ClassifierHead) (w : Nat → Nat → Rat)
    (b : Nat → Rat) (pooled : List Rat) : List Rat :=
  h.fc.apply w b pooled

/-- The `XceptionAligned` module after a successful `__init__`. -/
structure XceptionAligned where
  num_classes : Nat
  drop_rate : Rat
  stem : List ConvBnAct
  blocks : List XceptionModule
  feature_info : List FeatureInfo
  num_features : Nat
  head : ClassifierHead
deriving DecidableEq, Repr

/-- Loop state of the block loop in `XceptionAligned.__init__`:
`num_features` is `none` until the first iteration assigns it. -/
structure BuildState where
  curr_stride : Nat
  curr_dilation : Nat
  blocks : List XceptionModule
  feature_info : List FeatureInfo
  num_features : Option Nat
  idx : Nat
deriving DecidableEq, Repr

/-- The `for i, b in enumerate(block_cfg)` loop: plan the block, construct
the `XceptionModule` with the effective stride/dilation, update
`num_features`, and append a `feature_info` entry when `feature_extract`. -/
def buildBlocks (os : Nat) : BuildState → List BlockCfg → Except BuildError BuildState
  | st, [] => .ok st
  | st, b :: rest =>
      let r := planBlock os st.curr_stride st.curr_dilation b.stride
      match XceptionModule.make b.in_chs b.out_chs r.eff_stride r.eff_dilation
          b.start_with_relu b.no_skip with
      | .error e => .error e
      | .ok m =>
          let nf := m.out_channels
          let fi :=
            if r.feature_extract then
              st.feature_info ++
                [⟨nf, r.curr_stride, "blocks." ++ toString st.idx ++ ".stack.act2"⟩]
            else st.feature_info
          buildBlocks os
            { curr_stride := r.curr_stride, curr_dilation := r.curr_dilation,
              blocks := st.blocks ++ [m], feature_info := fi,
              num_features := some nf, idx := st.idx + 1 }
            rest

/-- Initial loop state: `curr_dilation = 1`, `curr_stride = 2`, and
`feature_info = [dict(num_chs=64, reduction=2, module='stem.1')]`. -/
def initState : BuildState :=
  { curr_stride := 2, curr_dilation := 1, blocks := [],
    feature_info := [⟨64, 2, "stem.1"⟩], num_features := none, idx := 0 }

/-- `XceptionAligned.__init__`: asserts `output_stride in (8, 16, 32)`,
builds the two-stage stem (`in_chans`→32 stride 2, 32→64 stride 1), runs
the block loop, appends the unconditional trailing `feature_info` entry
for the last block, and constructs the head. -/
def XceptionAligned.make (block_cfg : List BlockCfg) (num_classes in_chans os : Nat)
    (drop_rate : Rat) (global_pool : String) : Except BuildError XceptionAligned :=
  if os = 8 ∨ os = 16 ∨ os = 32 then
    match buildBlocks os initState block_cfg with
    | .error e => .error e
    | .ok st =>
        match st.num_features with
        | none => .error .emptyBlockCfg
        | some nf =>
            .ok { num_classes := num_classes
                  drop_rate := drop_rate
                  stem := [⟨in_chans, 32, 3, 2, true⟩, ⟨32, 64, 3, 1, true⟩]
                  blocks := st.blocks
                  feature_info := st.feature_info ++
                    [⟨nf, st.curr_stride, "blocks." ++ toString (st.blocks.length - 1)⟩]
                  num_features := nf
                  head := ClassifierHead.make nf num_classes global_pool drop_rate }
  else .error (.invalidOutputStride os)

/-- `XceptionAligned.reset_classifier`: replaces `self.head` with a fresh
`ClassifierHead(self.num_features, num_classes, pool_type=global_pool,
drop_rate=self.drop_rate)`; nothing else is touched. -/
def XceptionAligned.reset_classifier (m : XceptionAligned) (num_classes : Nat)
    (global_pool : String) : XceptionAligned :=
  { m with head := ClassifierHead.make m.num_features num_classes global_pool m.drop_rate }

/-- The `SeparableConv2d` members of a module's stack, in order. -/
def stackConvs (m : XceptionModule) : List SeparableConv2d :=
  m.stack.filterMap fun it => match it with | .conv c => some c | _ => none

/-- The `xception41` preset `block_cfg` (entry flow, eight middle-flow
blocks, exit flow). -/
def xception41BlockCfg : List BlockCfg :=
  [⟨64, .scalar 128, 2, true, false⟩,
   ⟨128, .scalar 256, 2, true, false⟩,
   ⟨256, .scalar 728, 2, true, false⟩,
   ⟨728, .scalar 728, 1, true, false⟩, ⟨728, .scalar 728, 1, true, false⟩,
   ⟨728, .scalar 728, 1, true, false⟩, ⟨728, .scalar 728, 1, true, false⟩,
   ⟨728, .scalar 728, 1, true, false⟩, ⟨728, .scalar 728, 1, true, false⟩,
   ⟨728, .scalar 728, 1, true, false⟩, ⟨728, .scalar 728, 1, true, false⟩,
   ⟨728, .tuple [728, 1024, 1024], 2, true, false⟩,
   ⟨1024, .tuple [1536, 1536, 2048], 1, false, true⟩]

/-- Declared block strides of `xception41`. -/
def xception41Strides : List Nat := xception41BlockCfg.map BlockCfg.stride

/-- A one-block configuration whose only block has declared stride 1. -/
def cfgSingleStrideOne : List BlockCfg := [⟨64, .scalar 64, 1, true, false⟩]

/-- A two-block configuration whose second block declares `in_chs = 999`
even though the first block ends with 128 output channels. -/
def cfgMismatch : List BlockCfg :=
  [⟨64, .scalar 128, 1, true, false⟩, ⟨999, .scalar 256, 1, true, false⟩]

/-- Last of the three per-unit output channel counts a spec denotes
(`out_chs[-1]` after broadcasting). -/
def lastOutChs : ChannelSpec → Nat
  | .scalar c => c
  | .tuple l => l.getLastD 0

/-- Does some consecutive pair of blocks declare an `in_chs` different from
the previous block's last output channel count? -/
def hasChannelMismatch : List BlockCfg → Bool
  | b1 :: b2 :: rest =>
      (b2.in_chs != lastOutChs b1.out_chs) || hasChannelMismatch (b2 :: rest)
  | _ => false

/-- Is the `out_chs` field well formed (scalar, or list of length 3)? -/
def channelOk : ChannelSpec → Bool
  | .scalar _ => true
  | .tuple l => l.length == 3

/-- Channel-count semantics of one stack member: an activation preserves
the channel count; a `SeparableConv2d` requires its declared `inplanes`
(its depthwise conv has `groups = inplanes`) and yields `planes`. -/
def StackItem.shapeForward : StackItem → Nat → Except String Nat
  | .act _, c => .ok c
  | .conv sc, c => if c = sc.inplanes then .ok sc.planes else .error "conv channel mismatch"

/-- Channel-count semantics of a whole stack. -/
def stackShapeForward (items : List StackItem) (c : Nat) : Except String Nat :=
  items.foldlM (fun ch it => it.shapeForward ch) c

/-- Channel-count semantics of a shortcut `ConvBnAct`. -/
def ConvBnAct.shapeForward (s : ConvBnAct) (c : Nat) : Except String Nat :=
  if c = s.in_chs then .ok s.out_chs else .error "conv channel mismatch"

/-- Channel-count semantics of `XceptionModule.forward`: run the stack,
run the shortcut on the saved input, and require equal channel counts at
the residual addition. -/
def XceptionModule.shapeForward (m : XceptionModule) (c : Nat) : Except String Nat := do
  let x ← stackShapeForward m.stack c
  let skip ←
    match m.shortcut with
    | some s => s.shapeForward c
    | none => Except.ok c
  if !m.no_skip then
    if x = skip then Except.ok x else Except.error "add shape mismatch"
  else Except.ok x

/-- Channel-count semantics of the sequential block chain. -/
def chainShapeForward (ms : List XceptionModule) (c : Nat) : Except String Nat :=
  ms.foldlM (fun ch m => m.shapeForward ch) c

/-- A one-block configuration whose block declares a malformed 2-tuple of
output channels. -/
def cfgBadTuple : List BlockCfg := [⟨64, .tuple [32, 32], 1, true, false⟩]

/-- Fallback value used when extracting networks from successful builds. -/
def emptyNet : XceptionAligned :=
  { num_classes := 0, drop_rate := 0, stem := [], blocks := [], feature_info := [],
    num_features := 0, head := ClassifierHead.make 0 0 "avg" 0 }

/-- The network built from the one-block stride-1 configuration. -/
def exampleNet : XceptionAligned :=
  (XceptionAligned.make cfgSingleStrideOne 1000 3 32 0 "avg").toOption.getD emptyNet

/-- The network built from the mismatched-channel configuration. -/
def exampleNetMismatch : XceptionAligned :=
  (XceptionAligned.make cfgMismatch 1000 3 32 0 "avg").toOption.getD emptyNet

end XA

namespace XA

theorem planStepPair_fst_le (os : Nat) (s : Nat × Nat) (d : Nat) :
    s.1 ≤ (planStepPair os s d).1 := by
  by_cases h1 : d > 1
  · by_cases h2 : s.1 * d > os
    · simp [planStepPair, planBlock, h1, h2]
    · simp [planStepPair, planBlock, h1, h2]
      exact le_mul_of_one_le_right (Nat.zero_le _) (by omega)
  · simp [planStepPair, planBlock, h1]

theorem planStepPair_snd_eq (os : Nat) (s : Nat × Nat) (d : Nat) :
    (planStepPair os s d).2 = if d > 1 ∧ s.1 * d > os then s.2 * d else s.2 := by
  by_cases h1 : d > 1
  · by_cases h2 : s.1 * d > os
    · simp [planStepPair, planBlock, h1, h2]
    · simp [planStepPair, planBlock, h1, h2]
  · simp [planStepPair, planBlock, h1]

theorem planStepPair_snd_le (os : Nat) (s : Nat × Nat) (d : Nat) :
    s.2 ≤ (planStepPair os s d).2 := by
  rw [planStepPair_snd_eq]
  split
  · exact le_mul_of_one_le_right (Nat.zero_le _) (by omega)
  · exact Nat.le_refl _

theorem planStepPair_fst_bound (os : Nat) (s : Nat × Nat) (d : Nat)
    (hs : s.1 ≤ os) : (planStepPair os s d).1 ≤ os := by
  by_cases h1 : d > 1
  · by_cases h2 : s.1 * d > os
    · simpa [planStepPair, planBlock, h1, h2] using hs
    · simp [planStepPair, planBlock, h1, h2]
      omega
  · simpa [planStepPair, planBlock, h1] using hs

theorem planTrace_head (os : Nat) (s : Nat × Nat) (xs : List Nat) :
    (planTrace os s xs).head? = some s := by
  cases xs <;> rfl

theorem planTrace_fst_le (os : Nat) (xs : List Nat) : ∀ s : Nat × Nat, s.1 ≤ os →
    ∀ p ∈ planTrace os s xs, p.1 ≤ os := by
  induction xs with
  | nil =>
      intro s hs p hp
      simp [planTrace] at hp
      simpa [hp] using hs
  | cons d rest ih =>
      intro s hs p hp
      rw [planTrace] at hp
      rcases List.mem_cons.mp hp with h | h
      · simpa [h] using hs
      · exact ih _ (planStepPair_fst_bound os s d hs) p h

theorem planTrace_chain (os : Nat) (xs : List Nat) : ∀ s : Nat × Nat,
    List.Chain' (fun a b : Nat × Nat => a.1 ≤ b.1 ∧ a.2 ≤ b.2) (planTrace os s xs) := by
  induction xs with
  | nil => intro s; simp [planTrace]
  | cons d rest ih =>
      intro s
      rw [planTrace, List.chain'_cons']
      refine ⟨?_, ih _⟩
      intro b hb
      rw [planTrace_head] at hb
      cases hb
      exact ⟨planStepPair_fst_le os s d, planStepPair_snd_le os s d⟩

theorem planFold_cons (os : Nat) (s : Nat × Nat) (d : Nat) (rest : List Nat) :
    planFold os s (d :: rest) = planFold os (planStepPair os s d) rest := by
  simp [planFold]

theorem planFold_snd (os : Nat) (xs : List Nat) : ∀ s : Nat × Nat,
    (planFold os s xs).2 = s.2 * (absorbedStrides os s xs).prod := by
  induction xs with
  | nil => intro s; simp [planFold, absorbedStrides]
  | cons d rest ih =>
      intro s
      rw [planFold_cons, ih, absorbedStrides]
      by_cases h1 : d > 1
      · by_cases h2 : s.1 * d > os
        · simp [planStepPair_snd_eq, h1, h2]
          ring
        · simp [planStepPair_snd_eq, h1, h2]
      · simp [planStepPair_snd_eq, h1]

/-- C1: for every target output_stride in {8, 16, 32} and every declared
stride sequence, the running `curr_stride` never exceeds `output_stride`,
the `(curr_stride, curr_dilation)` state is monotonically non-decreasing in
both components along the build, and the final `curr_dilation` equals the
product of the declared strides of the absorbed blocks. -/
theorem planner_state_bounded_monotone_absorbed (os : Nat) (strides : List Nat)
    (h : os = 8 ∨ os = 16 ∨ os = 32) :
    (∀ p ∈ planTrace os (2, 1) strides, p.1 ≤ os) ∧
    List.Chain' (fun a b : Nat × Nat => a.1 ≤ b.1 ∧ a.2 ≤ b.2)
      (planTrace os (2, 1) strides) ∧
    (planFold os (2, 1) strides).2 = (absorbedStrides os (2, 1) strides).prod := by
  refine ⟨planTrace_fst_le os strides (2, 1) (by omega),
    planTrace_chain os strides (2, 1), ?_⟩
  simpa using planFold_snd os strides (2, 1)

theorem planner_state_bounded_monotone_absorbed_witness :
    ((16 : Nat) = 8 ∨ (16 : Nat) = 16 ∨ (16 : Nat) = 32) ∧
    ((∀ p ∈ planTrace 16 (2, 1) [2, 2, 2, 2], p.1 ≤ 16) ∧
     List.Chain' (fun a b : Nat × Nat => a.1 ≤ b.1 ∧ a.2 ≤ b.2)
       (planTrace 16 (2, 1) [2, 2, 2, 2]) ∧
     (planFold 16 (2, 1) [2, 2, 2, 2]).2 =
       (absorbedStrides 16 (2, 1) [2, 2, 2, 2]).prod) :=
  ⟨by decide,
   planner_state_bounded_monotone_absorbed 16 [2, 2, 2, 2] (by decide)⟩

/-- C2 counterexample: at `output_stride = 16` on the Xception-41 stride
sequence, the absorbed exit-flow block (index 11) is built with effective
stride 1 but effective dilation 1, not dilation 2 as claimed: the code
assigns `b['dilation'] = curr_dilation` before growing `curr_dilation`. -/
theorem absorbed_block_dilation_counterexample :
    (planEffList 16 (2, 1) xception41Strides).getD 11 (0, 0) = (1, 1) ∧
    (planEffList 16 (2, 1) xception41Strides).getD 11 (0, 0) ≠ (1, 2) := by
  decide

/-- C2 amended: at `output_stride = 16` on the Xception-41 stride sequence,
the exit-flow stride-2 block is converted to effective stride 1 and keeps
the pre-absorption running dilation 1; the running dilation becomes 2 and
is applied to the following block; `curr_stride` caps at 16.  The third
conjunct checks the actual constructed blocks' per-conv (stride, dilation)
pairs, the fourth the final recorded reduction. -/
theorem absorbed_block_dilation_amended :
    planEffList 16 (2, 1) xception41Strides =
      [(2, 1), (2, 1), (2, 1), (1, 1), (1, 1), (1, 1), (1, 1), (1, 1), (1, 1),
       (1, 1), (1, 1), (1, 1), (1, 2)] ∧
    planFold 16 (2, 1) xception41Strides = (16, 2) ∧
    (XceptionAligned.make xception41BlockCfg 1000 3 16 0 "avg").toOption.map
        (fun n => n.blocks.map fun m => (stackConvs m).map fun c => (c.stride, c.dilation)) =
      some [[(1, 1), (1, 1), (2, 1)], [(1, 1), (1, 1), (2, 1)], [(1, 1), (1, 1), (2, 1)],
            [(1, 1), (1, 1), (1, 1)], [(1, 1), (1, 1), (1, 1)], [(1, 1), (1, 1), (1, 1)],
            [(1, 1), (1, 1), (1, 1)], [(1, 1), (1, 1), (1, 1)], [(1, 1), (1, 1), (1, 1)],
            [(1, 1), (1, 1), (1, 1)], [(1, 1), (1, 1), (1, 1)], [(1, 1), (1, 1), (1, 1)],
            [(1, 2), (1, 2), (1, 2)]] ∧
    (XceptionAligned.make xception41BlockCfg 1000 3 16 0 "avg").toOption.map
        (fun n => n.feature_info.getLast?.map FeatureInfo.reduction) =
      some (some 16) := by
  decide

/-- C7: a block with declared stride 1 is built with effective stride 1 and
the current running dilation, leaves `(curr_stride, curr_dilation)`
unchanged, and raises no feature-boundary flag, for every target
output_stride. -/
theorem stride_one_block_plan (os cs cd : Nat) :
    planBlock os cs cd 1 =
      { eff_stride := 1, eff_dilation := cd, curr_stride := cs,
        curr_dilation := cd, feature_extract := false } := rfl

end XA

namespace XA

theorem XceptionModule.make_ok_mk3 (in_chs : Nat) (spec : ChannelSpec)
    (stride dilation : Nat) (swr ns : Bool) (m : XceptionModule) :
    XceptionModule.make in_chs spec stride dilation swr ns = .ok m →
    ∃ c0 c1 c2, m = XceptionModule.mk3 in_chs c0 c1 c2 stride dilation swr ns := by
  intro h
  cases spec with
  | scalar c =>
      rw [XceptionModule.make] at h
      cases h
      exact ⟨c, c, c, rfl⟩
  | tuple l =>
      rw [XceptionModule.make] at h
      split at h
      · cases h
        exact ⟨_, _, _, rfl⟩
      · cases h

theorem XceptionModule.mk3_out_channels (in_chs c0 c1 c2 stride dilation : Nat)
    (swr ns : Bool) :
    (XceptionModule.mk3 in_chs c0 c1 c2 stride dilation swr ns).out_channels = c2 := rfl

/-- C3: the shortcut policy is exactly three-way.  With `no_skip` false and
(last out channel differs from `in_channels` or stride not 1) the module
gets a 1x1 projection shortcut with matching stride and no activation and
its forward is `stack(x) + shortcut(x)`; with `no_skip` false and matching
channels and stride the forward is `stack(x) + x` with no projection; with
`no_skip` true the forward is `stack(x)` alone.  The last conjunct is the
concrete in 728, out (728, 1024, 1024), stride 2 case, which builds a
projection. -/
theorem xception_module_shortcut_policy :
    (∀ in_chs spec stride dilation swr ns m x,
      XceptionModule.make in_chs spec stride dilation swr ns = .ok m →
      ((ns = false → (m.out_channels ≠ in_chs ∨ stride ≠ 1) →
          m.shortcut = some ⟨in_chs, m.out_channels, 1, stride, false⟩ ∧
          m.forward x = .add (.stackOut m.stack x)
            (.shortcutOut ⟨in_chs, m.out_channels, 1, stride, false⟩ x)) ∧
       (ns = false → m.out_channels = in_chs → stride = 1 →
          m.shortcut = none ∧
          m.forward x = .add (.stackOut m.stack x) x) ∧
       (ns = true → m.forward x = .stackOut m.stack x))) ∧
    (XceptionModule.make 728 (.tuple [728, 1024, 1024]) 2 1 true false).toOption.map
        XceptionModule.shortcut = some (some ⟨728, 1024, 1, 2, false⟩) := by
  constructor
  · intro in_chs spec stride dilation swr ns m x h
    obtain ⟨c0, c1, c2, rfl⟩ := XceptionModule.make_ok_mk3 _ _ _ _ _ _ _ h
    rw [XceptionModule.mk3_out_channels]
    refine ⟨?_, ?_, ?_⟩
    · rintro rfl hor
      have hcond : (c2 != in_chs || stride != 1) = true := by
        rcases hor with h' | h' <;> simp [h']
      constructor
      · simp [XceptionModule.mk3, hcond]
      · simp [XceptionModule.forward, XceptionModule.mk3, hcond]
    · rintro rfl rfl rfl
      have hcond : (c2 != c2 || (1 : Nat) != 1) = false := by simp
      constructor
      · simp [XceptionModule.mk3, hcond]
      · simp [XceptionModule.forward, XceptionModule.mk3, hcond]
    · rintro rfl
      simp [XceptionModule.forward, XceptionModule.mk3]
  · rfl

theorem xception_module_shortcut_policy_witness :
    XceptionModule.make 1 (.scalar 2) 1 1 true false =
      .ok (XceptionModule.mk3 1 2 2 2 1 1 true false) ∧
    ((false = false) ∧ ((2 : Nat) ≠ 1 ∨ (1 : Nat) ≠ 1)) ∧
    (XceptionModule.mk3 1 2 2 2 1 1 true false).shortcut = some ⟨1, 2, 1, 1, false⟩ ∧
    (XceptionModule.mk3 1 2 2 2 1 1 true false).forward .input =
      .add (.stackOut (XceptionModule.mk3 1 2 2 2 1 1 true false).stack .input)
        (.shortcutOut ⟨1, 2, 1, 1, false⟩ .input) := by
  refine ⟨rfl, ⟨rfl, by decide⟩, ?_⟩
  exact (xception_module_shortcut_policy.1 1 (.scalar 2) 1 1 true false
    (XceptionModule.mk3 1 2 2 2 1 1 true false) .input rfl).1 rfl (by decide)

/-- C8: in every XceptionBlock the three separable convs chain
`in_channels` → `out_channels[0]` → `out_channels[1]` → `out_channels[2]`,
the block's stride is used only at the third conv and the first two use
stride 1, both for an explicit channel triple and for a broadcast
scalar. -/
theorem stack_channel_chaining :
    (∀ in_chs c0 c1 c2 stride dilation : Nat, ∀ swr ns : Bool,
      (XceptionModule.make in_chs (.tuple [c0, c1, c2]) stride dilation swr ns).toOption.map
          stackConvs =
        some [⟨in_chs, c0, 3, 1, dilation, !swr⟩, ⟨c0, c1, 3, 1, dilation, !swr⟩,
              ⟨c1, c2, 3, stride, dilation, !swr⟩]) ∧
    (∀ in_chs c stride dilation : Nat, ∀ swr ns : Bool,
      (XceptionModule.make in_chs (.scalar c) stride dilation swr ns).toOption.map
          stackConvs =
        some [⟨in_chs, c, 3, 1, dilation, !swr⟩, ⟨c, c, 3, 1, dilation, !swr⟩,
              ⟨c, c, 3, stride, dilation, !swr⟩]) := by
  constructor
  · intro in_chs c0 c1 c2 stride dilation swr ns
    cases swr <;> rfl
  · intro in_chs c stride dilation swr ns
    cases swr <;> rfl

end XA

namespace XA

theorem XceptionModule.make_isOk (in_chs : Nat) (spec : ChannelSpec)
    (stride dilation : Nat) (swr ns : Bool) :
    (XceptionModule.make in_chs spec stride dilation swr ns).isOk = channelOk spec := by
  cases spec with
  | scalar c => rfl
  | tuple l =>
      rw [XceptionModule.make, channelOk]
      split
      · rename_i h
        simp [h, Except.isOk, Except.toBool]
      · rename_i h
        simp [h, Except.isOk, Except.toBool]

theorem XceptionModule.make_error (in_chs : Nat) (spec : ChannelSpec)
    (stride dilation : Nat) (swr ns : Bool) (e : BuildError) :
    XceptionModule.make in_chs spec stride dilation swr ns = .error e →
    ∃ l, l ≠ 3 ∧ e = .badChannelTuple l := by
  intro h
  cases spec with
  | scalar c => rw [XceptionModule.make] at h; cases h
  | tuple l =>
      rw [XceptionModule.make] at h
      split at h
      · cases h
      · rename_i hlen
        cases h
        exact ⟨l.length, hlen, rfl⟩

theorem XceptionModule.make_in_channels (in_chs : Nat) (spec : ChannelSpec)
    (stride dilation : Nat) (swr ns : Bool) (m : XceptionModule) :
    XceptionModule.make in_chs spec stride dilation swr ns = .ok m →
    m.in_channels = in_chs := by
  intro h
  obtain ⟨c0, c1, c2, rfl⟩ := XceptionModule.make_ok_mk3 _ _ _ _ _ _ _ h
  rfl

theorem planBlock_feature_extract (os cs cd d : Nat) :
    (planBlock os cs cd d).feature_extract = decide (1 < d) := by
  by_cases h1 : d > 1
  · by_cases h2 : cs * d > os
    · simp [planBlock, h1, h2]
    · simp [planBlock, h1, h2]
  · simp [planBlock, h1]

theorem buildBlocks_feature_info (os : Nat) (cfg : List BlockCfg) :
    ∀ st st', buildBlocks os st cfg = .ok st' →
      ∃ t : List FeatureInfo, st'.feature_info = st.feature_info ++ t ∧
        t.length = cfg.countP (fun b => decide (1 < b.stride)) := by
  induction cfg with
  | nil =>
      intro st st' h
      rw [buildBlocks] at h
      cases h
      exact ⟨[], by simp, by simp⟩
  | cons b rest ih =>
      intro st st' h
      simp only [buildBlocks] at h
      split at h
      · exact absurd h (by simp)
      · rename_i m heq
        obtain ⟨t, ht, hlen⟩ := ih _ _ h
        dsimp only at ht
        rw [planBlock_feature_extract] at ht
        by_cases hb : 1 < b.stride
        · rw [if_pos (by simpa using hb)] at ht
          refine ⟨⟨m.out_channels,
              (planBlock os st.curr_stride st.curr_dilation b.stride).curr_stride,
              "blocks." ++ toString st.idx ++ ".stack.act2"⟩ :: t, ?_, ?_⟩
          · rw [ht]; simp
          · simp [List.countP_cons, hb, hlen]
        · rw [if_neg (by simpa using hb)] at ht
          refine ⟨t, ht, ?_⟩
          simp [List.countP_cons, hb, hlen]

theorem buildBlocks_blocks (os : Nat) (cfg : List BlockCfg) :
    ∀ st st', buildBlocks os st cfg = .ok st' →
      ∃ ms : List XceptionModule, st'.blocks = st.blocks ++ ms ∧
        ms.map XceptionModule.in_channels = cfg.map BlockCfg.in_chs := by
  induction cfg with
  | nil =>
      intro st st' h
      rw [buildBlocks] at h
      cases h
      exact ⟨[], by simp, by simp⟩
  | cons b rest ih =>
      intro st st' h
      simp only [buildBlocks] at h
      split at h
      · exact absurd h (by simp)
      · rename_i m heq
        obtain ⟨ms, hms, hmap⟩ := ih _ _ h
        dsimp only at hms
        refine ⟨m :: ms, ?_, ?_⟩
        · rw [hms]; simp
        · simp [hmap, XceptionModule.make_in_channels _ _ _ _ _ _ _ heq]

theorem buildBlocks_isOk (os : Nat) (cfg : List BlockCfg) :
    ∀ st, (buildBlocks os st cfg).isOk = cfg.all (fun b => channelOk b.out_chs) := by
  induction cfg with
  | nil => intro st; rfl
  | cons b rest ih =>
      intro st
      simp only [buildBlocks]
      split
      · rename_i e heq
        have hmk := XceptionModule.make_isOk b.in_chs b.out_chs
          (planBlock os st.curr_stride st.curr_dilation b.stride).eff_stride
          (planBlock os st.curr_stride st.curr_dilation b.stride).eff_dilation
          b.start_with_relu b.no_skip
        rw [heq] at hmk
        have hco : channelOk b.out_chs = false := by rw [← hmk]; rfl
        simp [List.all_cons, hco, Except.isOk, Except.toBool]
      · rename_i m heq
        have hmk := XceptionModule.make_isOk b.in_chs b.out_chs
          (planBlock os st.curr_stride st.curr_dilation b.stride).eff_stride
          (planBlock os st.curr_stride st.curr_dilation b.stride).eff_dilation
          b.start_with_relu b.no_skip
        rw [heq] at hmk
        have hco : channelOk b.out_chs = true := by rw [← hmk]; rfl
        simp [List.all_cons, hco, ih]

theorem buildBlocks_num_features (os : Nat) (cfg : List BlockCfg) :
    ∀ st st', buildBlocks os st cfg = .ok st' →
      st'.num_features.isSome = (st.num_features.isSome || !cfg.isEmpty) := by
  induction cfg with
  | nil =>
      intro st st' h
      rw [buildBlocks] at h
      cases h
      simp
  | cons b rest ih =>
      intro st st' h
      simp only [buildBlocks] at h
      split at h
      · exact absurd h (by simp)
      · rename_i m heq
        have := ih _ _ h
        simpa using this

theorem buildBlocks_error_kind (os : Nat) (cfg : List BlockCfg) :
    ∀ st e, buildBlocks os st cfg = .error e →
      ∃ l, l ≠ 3 ∧ e = .badChannelTuple l := by
  induction cfg with
  | nil => intro st e h; rw [buildBlocks] at h; cases h
  | cons b rest ih =>
      intro st e h
      simp only [buildBlocks] at h
      split at h
      · rename_i e' heq
        cases h
        exact XceptionModule.make_error _ _ _ _ _ _ _ heq
      · rename_i m heq
        exact ih _ _ h

theorem XceptionAligned.make_ok_elim (cfg : List BlockCfg) (nc ic os : Nat)
    (dr : Rat) (gp : String) (net : XceptionAligned) :
    XceptionAligned.make cfg nc ic os dr gp = .ok net →
    ∃ st nf, buildBlocks os initState cfg = .ok st ∧ st.num_features = some nf ∧
      net.blocks = st.blocks ∧ net.num_features = nf ∧
      net.feature_info = st.feature_info ++
        [⟨nf, st.curr_stride, "blocks." ++ toString (st.blocks.length - 1)⟩] := by
  intro h
  rw [XceptionAligned.make] at h
  split at h
  · split at h
    · exact absurd h (by simp)
    · rename_i st heq
      split at h
      · exact absurd h (by simp)
      · rename_i nf hnf
        cases h
        exact ⟨st, nf, heq, hnf, rfl, rfl, rfl⟩
  · exact absurd h (by simp)

theorem XceptionAligned.make_isOk_eq (cfg : List BlockCfg) (nc ic os : Nat)
    (dr : Rat) (gp : String) :
    (XceptionAligned.make cfg nc ic os dr gp).isOk =
      (decide (os = 8 ∨ os = 16 ∨ os = 32) && !cfg.isEmpty &&
       cfg.all (fun b => channelOk b.out_chs)) := by
  rw [XceptionAligned.make]
  split
  · rename_i hos
    cases hbb : buildBlocks os initState cfg with
    | error e =>
        have hok := buildBlocks_isOk os cfg initState
        rw [hbb] at hok
        have hall : cfg.all (fun b => channelOk b.out_chs) = false := by
          rw [← hok]; rfl
        simp [hbb, hos, hall, Except.isOk, Except.toBool]
    | ok st =>
        have hok := buildBlocks_isOk os cfg initState
        rw [hbb] at hok
        have hall : cfg.all (fun b => channelOk b.out_chs) = true := by
          rw [← hok]; rfl
        have hnf := buildBlocks_num_features os cfg initState st hbb
        simp only [initState, Option.isSome_none, Bool.false_or] at hnf
        cases hnfv : st.num_features with
        | none =>
            rw [hnfv] at hnf
            simp only [Option.isSome_none] at hnf
            simp [hbb, hnfv, hos, ← hnf, hall, Except.isOk, Except.toBool]
        | some nf =>
            rw [hnfv] at hnf
            simp only [Option.isSome_some] at hnf
            simp [hbb, hnfv, hos, ← hnf, hall, Except.isOk, Except.toBool]
  · rename_i hos
    simp [hos, Except.isOk, Except.toBool]

end XA

namespace XA

/-- C4 counterexample: for the one-block stride-1 configuration the
constructed feature-info list has 2 entries (the stem entry plus the
trailing entry), not (number of blocks with stride > 1) + 1 = 1 as
claimed. -/
theorem feature_info_length_counterexample :
    (XceptionAligned.make cfgSingleStrideOne 1000 3 32 0 "avg").toOption.map
        (fun n => n.feature_info.length) = some 2 ∧
    cfgSingleStrideOne.countP (fun b => decide (1 < b.stride)) + 1 = 1 ∧
    (2 : Nat) ≠ 1 := by decide

/-- C4 amended: for every successful construction, the feature-info list
length equals the number of blocks whose declared stride is greater than 1,
plus 2: one leading stem entry and one trailing entry for the final
block. -/
theorem feature_info_length_amended :
    ∀ (cfg : List BlockCfg) (nc ic os : Nat) (dr : Rat) (gp : String)
      (net : XceptionAligned),
      XceptionAligned.make cfg nc ic os dr gp = .ok net →
      net.feature_info.length = cfg.countP (fun b => decide (1 < b.stride)) + 2 := by
  intro cfg nc ic os dr gp net h
  obtain ⟨st, nf, hbb, hnf, hbl, hnfeq, hfi⟩ :=
    XceptionAligned.make_ok_elim cfg nc ic os dr gp net h
  obtain ⟨t, ht, hlen⟩ := buildBlocks_feature_info os cfg initState st hbb
  rw [hfi, ht]
  simp only [initState, List.length_append, List.length_cons, List.length_nil, hlen]
  omega

theorem feature_info_length_amended_witness :
    XceptionAligned.make cfgSingleStrideOne 1000 3 32 0 "avg" = .ok exampleNet ∧
    exampleNet.feature_info.length =
      cfgSingleStrideOne.countP (fun b => decide (1 < b.stride)) + 2 :=
  ⟨rfl, feature_info_length_amended cfgSingleStrideOne 1000 3 32 0 "avg" exampleNet rfl⟩

/-- C5: construction fails with the invalid-output-stride assertion when
`output_stride` is not 8, 16 or 32; fails with the bad-channel-tuple
assertion (recording a length different from 3) when some block's
`out_chs` tuple is malformed; and for a valid output_stride, a nonempty
block list and well-formed channel tuples it does not fail. -/
theorem construction_validation :
    (∀ (cfg : List BlockCfg) (nc ic os : Nat) (dr : Rat) (gp : String),
        ¬(os = 8 ∨ os = 16 ∨ os = 32) →
        XceptionAligned.make cfg nc ic os dr gp =
          .error (.invalidOutputStride os)) ∧
    (∀ (cfg : List BlockCfg) (nc ic os : Nat) (dr : Rat) (gp : String),
        (os = 8 ∨ os = 16 ∨ os = 32) →
        (∃ b ∈ cfg, channelOk b.out_chs = false) →
        ∃ l, l ≠ 3 ∧ XceptionAligned.make cfg nc ic os dr gp =
          .error (.badChannelTuple l)) ∧
    (∀ (cfg : List BlockCfg) (nc ic os : Nat) (dr : Rat) (gp : String),
        (os = 8 ∨ os = 16 ∨ os = 32) → cfg ≠ [] →
        (∀ b ∈ cfg, channelOk b.out_chs = true) →
        (XceptionAligned.make cfg nc ic os dr gp).isOk = true) := by
  refine ⟨?_, ?_, ?_⟩
  · intro cfg nc ic os dr gp h
    simp [XceptionAligned.make, h]
  · intro cfg nc ic os dr gp hos hbad
    cases hbb : buildBlocks os initState cfg with
    | ok st =>
        rcases hbad with ⟨b, hb, hbf⟩
        have hok := buildBlocks_isOk os cfg initState
        rw [hbb] at hok
        have hall : cfg.all (fun b => channelOk b.out_chs) = true := by
          rw [← hok]; rfl
        rw [List.all_eq_true] at hall
        have := hall b hb
        rw [hbf] at this
        cases this
    | error e =>
        obtain ⟨l, hl, rfl⟩ := buildBlocks_error_kind os cfg initState e hbb
        exact ⟨l, hl, by simp [XceptionAligned.make, hos, hbb]⟩
  · intro cfg nc ic os dr gp hos hne hallmem
    rw [XceptionAligned.make_isOk_eq]
    have h1 : decide (os = 8 ∨ os = 16 ∨ os = 32) = true := by simp [hos]
    have h2 : cfg.isEmpty = false := by
      cases cfg
      · exact absurd rfl hne
      · rfl
    have h3 : cfg.all (fun b => channelOk b.out_chs) = true :=
      List.all_eq_true.mpr hallmem
    simp [h1, h2, h3]

theorem construction_validation_witness :
    (¬((7 : Nat) = 8 ∨ (7 : Nat) = 16 ∨ (7 : Nat) = 32) ∧
     XceptionAligned.make cfgSingleStrideOne 1000 3 7 0 "avg" =
       .error (.invalidOutputStride 7)) ∧
    (((32 : Nat) = 8 ∨ (32 : Nat) = 16 ∨ (32 : Nat) = 32) ∧
     (∃ b ∈ cfgBadTuple, channelOk b.out_chs = false) ∧
     ∃ l, l ≠ 3 ∧ XceptionAligned.make cfgBadTuple 1000 3 32 0 "avg" =
       .error (.badChannelTuple l)) ∧
    (cfgSingleStrideOne ≠ [] ∧
     (∀ b ∈ cfgSingleStrideOne, channelOk b.out_chs = true) ∧
     (XceptionAligned.make cfgSingleStrideOne 1000 3 32 0 "avg").isOk = true) :=
  ⟨⟨by decide, construction_validation.1 cfgSingleStrideOne 1000 3 7 0 "avg" (by decide)⟩,
   ⟨by decide, by decide,
    construction_validation.2.1 cfgBadTuple 1000 3 32 0 "avg" (by decide) (by decide)⟩,
   ⟨by decide, by decide,
    construction_validation.2.2 cfgSingleStrideOne 1000 3 32 0 "avg"
      (by decide) (by decide) (by decide)⟩⟩

/-- C6 counterexample: a configuration whose second block declares
`in_chs = 999` against the previous block's 128 output channels still
constructs successfully; no shape-mismatch error is raised at build
time. -/
theorem channel_mismatch_builds_ok :
    hasChannelMismatch cfgMismatch = true ∧
    (XceptionAligned.make cfgMismatch 1000 3 32 0 "avg").isOk = true := by
  decide

/-- C6 amended: construction never checks consecutive blocks' channel
agreement: success depends only on output_stride validity, nonemptiness and
channel-tuple well-formedness; each block keeps its declared `in_chs`
unchanged (no auto-correction); on the mismatched configuration the build
succeeds and the mismatch surfaces only when the channel-count semantics of
the forward pass is evaluated. -/
theorem channel_mismatch_no_construction_check :
    (∀ (cfg : List BlockCfg) (nc ic os : Nat) (dr : Rat) (gp : String),
       (XceptionAligned.make cfg nc ic os dr gp).isOk =
         (decide (os = 8 ∨ os = 16 ∨ os = 32) && !cfg.isEmpty &&
          cfg.all (fun b => channelOk b.out_chs))) ∧
    (∀ (cfg : List BlockCfg) (nc ic os : Nat) (dr : Rat) (gp : String)
       (net : XceptionAligned),
       XceptionAligned.make cfg nc ic os dr gp = .ok net →
       net.blocks.map XceptionModule.in_channels = cfg.map BlockCfg.in_chs) ∧
    (hasChannelMismatch cfgMismatch = true ∧
     (XceptionAligned.make cfgMismatch 1000 3 32 0 "avg").isOk = true ∧
     (XceptionAligned.make cfgMismatch 1000 3 32 0 "avg").toOption.map
         (fun n => (chainShapeForward n.blocks 64).isOk) = some false) := by
  refine ⟨XceptionAligned.make_isOk_eq, ?_, by decide⟩
  intro cfg nc ic os dr gp net h
  obtain ⟨st, nf, hbb, hnf, hbl, hnfeq, hfi⟩ :=
    XceptionAligned.make_ok_elim cfg nc ic os dr gp net h
  obtain ⟨ms, hms, hmap⟩ := buildBlocks_blocks os cfg initState st hbb
  rw [hbl, hms]
  simpa [initState] using hmap

theorem channel_mismatch_no_construction_check_witness :
    XceptionAligned.make cfgMismatch 1000 3 32 0 "avg" = .ok exampleNetMismatch ∧
    exampleNetMismatch.blocks.map XceptionModule.in_channels =
      cfgMismatch.map BlockCfg.in_chs :=
  ⟨rfl, channel_mismatch_no_construction_check.2.1 cfgMismatch 1000 3 32 0 "avg"
    exampleNetMismatch rfl⟩

/-- C9: with `num_classes = 0` the head's projection stage is the identity
and the eval-mode head output is exactly the pooled, flattened feature
vector; `reset_classifier` afterwards replaces only the head (its fc layer
becoming a linear map onto the new class count), leaving `num_features`,
the stem, and the block chain unchanged. -/
theorem head_identity_and_reset_frame :
    (∀ (f : Nat) (pool : String) (dr : Rat) (w : Nat → Nat → Rat)
        (b : Nat → Rat) (v : List Rat),
        (ClassifierHead.make f 0 pool dr).forwardPooled w b v = v) ∧
    (∀ (m : XceptionAligned) (n : Nat) (pool : String),
        (m.reset_classifier n pool).num_features = m.num_features ∧
        (m.reset_classifier n pool).stem = m.stem ∧
        (m.reset_classifier n pool).blocks = m.blocks ∧
        (0 < n → (m.reset_classifier n pool).head.fc =
          .linear m.num_features n)) := by
  constructor
  · intro f pool dr w b v
    rfl
  · intro m n pool
    refine ⟨rfl, rfl, rfl, ?_⟩
    intro hn
    simp [XceptionAligned.reset_classifier, ClassifierHead.make, hn]

theorem head_identity_and_reset_frame_witness :
    (ClassifierHead.make 5 0 "avg" 0).forwardPooled (fun _ _ => 0) (fun _ => 0)
      [1, 2] = [1, 2] ∧
    (0 < 10 ∧ (exampleNet.reset_classifier 10 "avg").head.fc =
      .linear exampleNet.num_features 10) :=
  ⟨head_identity_and_reset_frame.1 5 "avg" 0 (fun _ _ => 0) (fun _ => 0) [1, 2],
   by decide,
   (head_identity_and_reset_frame.2 exampleNet 10 "avg").2.2.2 (by decide)⟩

/-- C10: for every successful construction the first feature-info entry is
the stem entry with 64 channels, reduction 2 and module id `stem.1`,
preceding all block-derived entries. -/
theorem feature_info_first_entry_stem :
    ∀ (cfg : List BlockCfg) (nc ic os : Nat) (dr : Rat) (gp : String)
      (net : XceptionAligned),
      XceptionAligned.make cfg nc ic os dr gp = .ok net →
      net.feature_info.head? = some ⟨64, 2, "stem.1"⟩ := by
  intro cfg nc ic os dr gp net h
  obtain ⟨st, nf, hbb, hnf, hbl, hnfeq, hfi⟩ :=
    XceptionAligned.make_ok_elim cfg nc ic os dr gp net h
  obtain ⟨t, ht, hlen⟩ := buildBlocks_feature_info os cfg initState st hbb
  rw [hfi, ht]
  simp [initState]

theorem feature_info_first_entry_stem_witness :
    XceptionAligned.make cfgSingleStrideOne 1000 3 32 0 "avg" = .ok exampleNet ∧
    exampleNet.feature_info.head? = some ⟨64, 2, "stem.1"⟩ :=
  ⟨rfl, feature_info_first_entry_stem cfgSingleStrideOne 1000 3 32 0 "avg"
    exampleNet rfl⟩

end XA
